import Mathlib

/-!
Verification of the stream-yomi-chat frontend client
(`src/frontend/src/hooks/useChatClient.js`,
`src/frontend/src/components/ToolConfirmationModal.js` / `ChatInput`)
against its natural-language specification, via a shallow embedding of the
client state and its event handlers.
-/

set_option maxHeartbeats 1000000

/-- A chat message as produced by `addMessage` / the `message` branch of
`handleStreamEvent`: `{ content, sender, type, id }`.  The JS id is
`Date.now() + Math.random()`; we model it as a `Nat` supplied externally. -/
structure Msg where
  content : String
  sender : String
  type : String
  id : Nat
deriving DecidableEq, Repr

/-- A server stream event: fields `{type, session_id, content?, name?, result?,
is_complete?}` of the event protocol.  Absent optional fields are modelled by
the empty string / `false`, which is all that the handler observes. -/
structure StreamEvent where
  type : String
  content : String
  name : String
  result : String
  session_id : String
  is_complete : Bool
deriving DecidableEq, Repr

/-- A parameter schema entry shown by the confirmation modal. -/
structure ParamSchema where
  type : String
  required : Bool
  description : String
deriving DecidableEq, Repr

/-- The `toolData` record consumed by `ToolConfirmationModal`:
tool name, description, proposed arguments and the argument schema. -/
structure ToolData where
  name : String
  description : String
  args : List (String × String)
  args_schema : List (String × ParamSchema)
deriving DecidableEq, Repr

/-- The client state held by the `useChatClient` hook: the `useState` cells
`messages`, `isProcessing`, `status`, `isTyping`, `toolConfirmation`.
(`sessionId` is a separate immutable cell, modelled by `ChatClient`.) -/
structure ClientState where
  messages : List Msg
  isProcessing : Bool
  status : String
  isTyping : Bool
  toolConfirmation : Option ToolData
deriving DecidableEq, Repr

/-- The initial state of the `useState` cells of the hook. -/
def initialClientState : ClientState :=
  { messages := []
    isProcessing := false
    status := "准备就绪"
    isTyping := false
    toolConfirmation := none }

/-- The function `addMessage(content, sender, type)`: appends a new message to the list and
returns it.  The fresh id is passed in explicitly. -/
def addMessage (content sender ty : String) (id : Nat) (st : ClientState) :
    ClientState × Msg :=
  let newMessage : Msg := { content := content, sender := sender, type := ty, id := id }
  ({ st with messages := st.messages ++ [newMessage] }, newMessage)

/-- The list update performed in the `message` branch: find the first message
whose `id` matches (`findIndex`) and replace it; leave the list unchanged when
no message matches. -/
def updateById (msgs : List Msg) (m : Msg) : List Msg :=
  match msgs with
  | [] => []
  | x :: xs => if x.id = m.id then m :: xs else x :: updateById xs m

/-- The handler `handleStreamEvent(event, currentBotMessage)`: the switch over
`event.type`.  Returns the updated state together with the new
`currentBotMessage` reference. -/
def handleStreamEvent (fresh : Nat) (ev : StreamEvent) (st : ClientState)
    (cur : Option Msg) : ClientState × Option Msg :=
  if ev.type = "session_info" then
    ({ st with status := "会话开始..." }, cur)
  else if ev.type = "message" then
    let st1 := { st with isTyping := true, status := "AI正在回复..." }
    let r :=
      match cur with
      | none =>
        let m : Msg := { content := ev.content, sender := "bot", type := "normal", id := fresh }
        ({ st1 with messages := st1.messages ++ [m] }, some m)
      | some c =>
        let c2 := { c with content := c.content ++ ev.content }
        ({ st1 with messages := updateById st1.messages c2 }, some c2)
    if ev.is_complete then
      ({ r.1 with isTyping := false, status := "响应完成" }, r.2)
    else r
  else if ev.type = "tool_call" then
    let st1 := (addMessage ("🔧 调用工具: " ++ ev.name) "bot" "tool" fresh st).1
    ({ st1 with status := "正在执行工具..." }, cur)
  else if ev.type = "tool_result" then
    ((addMessage ("✅ 工具结果: " ++ ev.result) "bot" "event" fresh st).1, cur)
  else if ev.type = "complete" then
    ({ st with isTyping := false, status := "准备就绪" }, none)
  else if ev.type = "stream_end" then
    ({ st with isTyping := false, status := "准备就绪" }, none)
  else if ev.type = "error" then
    let st1 := (addMessage ("❌ 错误: " ++ ev.content) "bot" "error" fresh st).1
    ({ st1 with status := "发生错误", isTyping := false }, cur)
  else
    (st, cur)

/-- Run a sequence of stream events through `handleStreamEvent`, consuming one
fresh id per event. -/
def runEvents : List Nat → List StreamEvent → ClientState → Option Msg →
    ClientState × Option Msg
  | _, [], st, cur => (st, cur)
  | ids, ev :: rest, st, cur =>
    let r := handleStreamEvent (ids.headD 0) ev st cur
    runEvents ids.tail rest r.1 r.2

/-- A `message`-typed stream event with the given content and completion flag. -/
def mkMessageEvent (c : String) (ic : Bool) : StreamEvent :=
  { type := "message", content := c, name := "", result := "", session_id := "", is_complete := ic }

/-- One line of the SSE read loop in `streamChat`: only lines starting with
`"data: "` are considered (the `startsWith` test is encoded as equality of the
first six characters with `"data: "`); payloads equal to `"[DONE]"` or blank
after trimming are skipped; a payload the JSON parser (the external `parse`)
rejects is caught and skipped.  Otherwise the parsed event is handled. -/
def processLine (parse : String → Option StreamEvent) (fresh : Nat)
    (line : String) (st : ClientState) (cur : Option Msg) :
    ClientState × Option Msg :=
  if line.take 6 = "data: " then
    let data := line.drop 6
    if data = "[DONE]" ∨ data.trim = "" then (st, cur)
    else
      match parse data with
      | some ev => handleStreamEvent fresh ev st cur
      | none => (st, cur)
  else (st, cur)

/-- The inner `for (const line of lines)` loop, threading the fresh-id supply. -/
def processLines (parse : String → Option StreamEvent) :
    List Nat → List String → ClientState → Option Msg →
    List Nat × ClientState × Option Msg
  | ids, [], st, cur => (ids, st, cur)
  | ids, l :: rest, st, cur =>
    let r := processLine parse (ids.headD 0) l st cur
    processLines parse ids.tail rest r.1 r.2

/-- The outer `while` read loop of `streamChat`: each received chunk is split
on newlines and its lines processed in order. -/
def processChunks (parse : String → Option StreamEvent) :
    List Nat → List String → ClientState → Option Msg →
    List Nat × ClientState × Option Msg
  | ids, [], st, cur => (ids, st, cur)
  | ids, ch :: rest, st, cur =>
    let r := processLines parse ids (ch.splitOn "\n") st cur
    processChunks parse r.1 rest r.2.1 r.2.2

/-- The outcome of the `fetch` + read loop inside `streamChat`, as observed by
`sendMessage`: either the stream ends normally after delivering `chunks`, or a
network/HTTP error is thrown after `chunks` have already been processed
(a pre-stream failure is `err []`). -/
inductive FetchResult where
  | ok (chunks : List String)
  | err (chunks : List String)
deriving DecidableEq, Repr

/-- The text of the message added on a thrown network failure. -/
def netErrText : String := "抱歉，发生了网络错误。请稍后重试。"

/-- The function `sendMessage(message)`: rejected outright while `isProcessing`; otherwise
adds the user message, sets the processing flag, runs the stream (starting with
no current bot message), appends one network-error message if the stream threw,
and finally clears the processing flag. -/
def sendMessage (parse : String → Option StreamEvent) (ids : List Nat)
    (uid eid : Nat) (msg : String) (res : FetchResult) (st : ClientState) :
    ClientState :=
  if st.isProcessing then st
  else
    let st1 := (addMessage msg "user" "normal" uid st).1
    let st2 := { st1 with isProcessing := true }
    match res with
    | .ok chunks =>
      { (processChunks parse ids chunks st2 none).2.1 with isProcessing := false }
    | .err chunks =>
      let st3 := (processChunks parse ids chunks st2 none).2.1
      { (addMessage netErrText "bot" "error" eid st3).1 with isProcessing := false }

/-- The submit handler `ChatInput.handleSubmit`: submits the trimmed message only when it is
nonempty and the client is not processing; returns the message passed to
`onSendMessage`, or `none` when submission is refused. -/
def chatInputSubmit (message : String) (isProcessing : Bool) : Option String :=
  let trimmedMessage := message.trim
  if !trimmedMessage.isEmpty && !isProcessing then some trimmedMessage else none

/-- The function `generateSessionId()`: the literal `session_` followed by a base-36 suffix;
the random suffix is supplied externally. -/
def generateSessionId (rnd : String) : String := "session_" ++ rnd

/-- The immutable identity of one `useChatClient` instance: the single session
identifier fixed at hook creation (`useState(generateSessionId())`). -/
structure ChatClient where
  sessionId : String
deriving DecidableEq, Repr

/-- The JSON body of a `POST /chat/stream` request:
`{ message, session_id }`. -/
structure ChatStreamBody where
  message : String
  session_id : String
deriving DecidableEq, Repr

/-- The JSON body of a `POST /chat/tool-confirm` request: exactly the three
fields `{ session_id, confirmed, tool_args }`. -/
structure ToolConfirmBody where
  session_id : String
  confirmed : Bool
  tool_args : List (String × String)
deriving DecidableEq, Repr

/-- The request body built by `streamChat(message)`. -/
def streamChatRequestBody (cl : ChatClient) (msg : String) : ChatStreamBody :=
  { message := msg, session_id := cl.sessionId }

/-- The request body built by `confirmTool(confirmed, toolArgs)`. -/
def confirmToolRequestBody (cl : ChatClient) (confirmed : Bool)
    (toolArgs : List (String × String)) : ToolConfirmBody :=
  { session_id := cl.sessionId, confirmed := confirmed, tool_args := toolArgs }

/-- First-match lookup in an argument mapping, modelling JS property access on
an object built with unique keys. -/
def lookupArg : List (String × String) → String → Option String
  | [], _ => none
  | p :: rest, key => if p.1 = key then some p.2 else lookupArg rest key

/-- The initial `toolArgs` state of the modal: one entry per key of
`toolData.args_schema`, valued with the proposed argument when present and
nonempty, and with the empty string otherwise. -/
def initToolArgs (td : ToolData) : List (String × String) :=
  (td.args_schema.map Prod.fst).map (fun k => (k, (lookupArg td.args k).getD ""))

/-- The edit handler `handleParamChange(paramName, value)` spreads the map —
overwrite the entry when the key exists, append it at the end otherwise. -/
def handleParamChange (args : List (String × String)) (k v : String) :
    List (String × String) :=
  if k ∈ args.map Prod.fst then
    args.map (fun p => if p.1 = k then (k, v) else p)
  else args ++ [(k, v)]

/-- Apply a sequence of user edits to the argument state of the modal. -/
def applyEdits (edits : List (String × String)) (args : List (String × String)) :
    List (String × String) :=
  edits.foldl (fun a p => handleParamChange a p.1 p.2) args

/-- The confirm button: `onConfirm(true, toolArgs)` with the current modal
argument state. -/
def handleConfirm (toolArgs : List (String × String)) :
    Bool × List (String × String) := (true, toolArgs)

/-- The cancel button: `onConfirm(false, ...)` with an empty mapping. -/
def handleCancel : Bool × List (String × String) := (false, [])

/-- A raw session-log message of the backend, with a role and content text. -/
structure SpecMessage where
  role : String
  content : String
deriving DecidableEq, Repr

/-- Total character count of a raw message log. -/
def totalChars (log : List SpecMessage) : Nat :=
  (log.map (fun m => m.content.length)).sum

/-- The longest suffix of the log whose total character count fits under the
threshold: drop oldest messages until the rest fits. -/
def recentSuffix : List SpecMessage → List SpecMessage
  | [] => []
  | m :: rest =>
    if totalChars (m :: rest) ≤ 3200 then m :: rest else recentSuffix rest

/-- Modelled from the spec: the backend Context Assembler (Memory Compressor)
is not under `src/` — only the frontend is; this definition follows §4.2 of
the specification.  If the total character count of the raw log is at most 3200 the
ContextWindow is the raw sequence, unmodified; otherwise the log is partitioned
into a recent suffix kept verbatim and an older prefix replaced by a single
synthetic system-role summary message obtained from the external `summarize`
collaborator. -/
def assembleContext (summarize : List SpecMessage → String)
    (log : List SpecMessage) : List SpecMessage :=
  if totalChars log ≤ 3200 then log
  else
    let recent := recentSuffix log
    let older := log.take (log.length - recent.length)
    { role := "system", content := summarize older } :: recent

/-- The sequence of `message` events with the given contents and flags. -/
def msgEvents (cs : List (String × Bool)) : List StreamEvent :=
  cs.map (fun p => mkMessageEvent p.1 p.2)

/-- Concatenation of the `content` fields of a sequence of message events, in
arrival order. -/
def concatContents : List (String × Bool) → String
  | [] => ""
  | p :: rest => p.1 ++ concatContents rest

theorem updateById_no_match_prefix (pre : List Msg) (c : Msg) (post : List Msg)
    (m : Msg) (hid : m.id = c.id) (hpre : ∀ y ∈ pre, y.id ≠ c.id) :
    updateById (pre ++ c :: post) m = pre ++ m :: post := by
  induction pre with
  | nil => simp [updateById, hid]
  | cons a as ih =>
    have ha : ¬ (a.id = m.id) := fun h => hpre a (by simp) (h.trans hid)
    simp only [List.cons_append, updateById, ha, if_false]
    exact congrArg (List.cons a) (ih fun y hy => hpre y (List.mem_cons_of_mem _ hy))

theorem updateById_cases (l : List Msg) (m : Msg) :
    updateById l m = l ∨
    ∃ pre x post, l = pre ++ x :: post ∧ x.id = m.id ∧
      updateById l m = pre ++ m :: post := by
  induction l with
  | nil => exact Or.inl rfl
  | cons a as ih =>
    by_cases h : a.id = m.id
    · exact Or.inr ⟨[], a, as, rfl, h, by simp [updateById, h]⟩
    · rcases ih with h1 | ⟨pre, x, post, he, hid, hu⟩
      · exact Or.inl (by simp [updateById, h, h1])
      · exact Or.inr ⟨a :: pre, x, post, by simp [he], hid,
          by simp [updateById, h, hu]⟩

theorem runEvents_message_accumulate (cs : List (String × Bool)) :
    ∀ (ids : List Nat) (st : ClientState) (pre : List Msg) (c : Msg)
      (post : List Msg), st.messages = pre ++ c :: post →
      (∀ y ∈ pre, y.id ≠ c.id) →
      (runEvents ids (msgEvents cs) st (some c)).1.messages
          = pre ++ { c with content := c.content ++ concatContents cs } :: post
      ∧ (runEvents ids (msgEvents cs) st (some c)).2
          = some { c with content := c.content ++ concatContents cs } := by
  induction cs with
  | nil =>
    intro ids st pre c post hmsgs _
    simp [runEvents, msgEvents, concatContents, hmsgs]
  | cons p rest ih =>
    intro ids st pre c post hmsgs hpre
    obtain ⟨a, b⟩ := p
    have hupd : updateById st.messages { c with content := c.content ++ a }
        = pre ++ { c with content := c.content ++ a } :: post := by
      rw [hmsgs]
      exact updateById_no_match_prefix pre c post _ rfl hpre
    cases b with
    | false =>
      have hstep : handleStreamEvent (ids.headD 0) (mkMessageEvent a false) st (some c)
          = ({ st with
                messages := pre ++ { c with content := c.content ++ a } :: post,
                isTyping := true, status := "AI正在回复..." },
              some { c with content := c.content ++ a }) := by
        simp [handleStreamEvent, mkMessageEvent, hupd]
      have h1 := ih ids.tail
          ({ st with
              messages := pre ++ { c with content := c.content ++ a } :: post,
              isTyping := true, status := "AI正在回复..." })
          pre { c with content := c.content ++ a } post rfl hpre
      simp only [msgEvents, List.map_cons, runEvents, hstep]
      rw [show concatContents ((a, false) :: rest) = a ++ concatContents rest from rfl,
        ← String.append_assoc]
      exact h1
    | true =>
      have hstep : handleStreamEvent (ids.headD 0) (mkMessageEvent a true) st (some c)
          = ({ st with
                messages := pre ++ { c with content := c.content ++ a } :: post,
                isTyping := false, status := "响应完成" },
              some { c with content := c.content ++ a }) := by
        simp [handleStreamEvent, mkMessageEvent, hupd]
      have h1 := ih ids.tail
          ({ st with
              messages := pre ++ { c with content := c.content ++ a } :: post,
              isTyping := false, status := "响应完成" })
          pre { c with content := c.content ++ a } post rfl hpre
      simp only [msgEvents, List.map_cons, runEvents, hstep]
      rw [show concatContents ((a, true) :: rest) = a ++ concatContents rest from rfl,
        ← String.append_assoc]
      exact h1

/-- C1: the `message` events are treated as incremental deltas: starting a turn
with no current bot message, the first `message` event creates the bot message
with exactly its content and every later `message` event appends its content,
so after any nonempty sequence of `message` events the displayed content is the
concatenation of the `content` fields of the events in arrival order, never a
snapshot replacement. -/
theorem message_events_accumulate_deltas (ids : List Nat)
    (cs : List (String × Bool)) (st : ClientState) (hne : cs ≠ [])
    (hfresh : ∀ y ∈ st.messages, y.id ≠ ids.headD 0) :
    (runEvents ids (msgEvents cs) st none).1.messages
        = st.messages
          ++ [{ content := concatContents cs, sender := "bot", type := "normal",
                id := ids.headD 0 }]
    ∧ (runEvents ids (msgEvents cs) st none).2
        = some { content := concatContents cs, sender := "bot", type := "normal",
                 id := ids.headD 0 } := by
  cases cs with
  | nil => exact absurd rfl hne
  | cons p rest =>
    obtain ⟨a, b⟩ := p
    cases b with
    | false =>
      have hstep : handleStreamEvent (ids.headD 0) (mkMessageEvent a false) st none
          = ({ st with
                messages := st.messages
                  ++ [{ content := a, sender := "bot", type := "normal", id := ids.headD 0 }],
                isTyping := true, status := "AI正在回复..." },
              some { content := a, sender := "bot", type := "normal", id := ids.headD 0 }) := by
        simp [handleStreamEvent, mkMessageEvent]
      simp only [msgEvents, List.map_cons, runEvents, hstep]
      exact runEvents_message_accumulate rest ids.tail _ st.messages
        { content := a, sender := "bot", type := "normal", id := ids.headD 0 } []
        rfl hfresh
    | true =>
      have hstep : handleStreamEvent (ids.headD 0) (mkMessageEvent a true) st none
          = ({ st with
                messages := st.messages
                  ++ [{ content := a, sender := "bot", type := "normal", id := ids.headD 0 }],
                isTyping := false, status := "响应完成" },
              some { content := a, sender := "bot", type := "normal", id := ids.headD 0 }) := by
        simp [handleStreamEvent, mkMessageEvent]
      simp only [msgEvents, List.map_cons, runEvents, hstep]
      exact runEvents_message_accumulate rest ids.tail _ st.messages
        { content := a, sender := "bot", type := "normal", id := ids.headD 0 } []
        rfl hfresh

theorem message_events_accumulate_deltas_witness :
    (([("Hel", false), ("lo ", false), ("wo", false), ("rld", true)] :
        List (String × Bool)) ≠ []
      ∧ ∀ y ∈ initialClientState.messages, y.id ≠ ([7] : List Nat).headD 0)
    ∧ (runEvents [7]
          (msgEvents [("Hel", false), ("lo ", false), ("wo", false), ("rld", true)])
          initialClientState none).1.messages
        = initialClientState.messages
          ++ [{ content := concatContents
                  [("Hel", false), ("lo ", false), ("wo", false), ("rld", true)],
                sender := "bot", type := "normal", id := ([7] : List Nat).headD 0 }]
    ∧ (runEvents [7]
          (msgEvents [("Hel", false), ("lo ", false), ("wo", false), ("rld", true)])
          initialClientState none).2
        = some { content := concatContents
                  [("Hel", false), ("lo ", false), ("wo", false), ("rld", true)],
                 sender := "bot", type := "normal", id := ([7] : List Nat).headD 0 } :=
  ⟨⟨by decide, by simp [initialClientState]⟩,
    message_events_accumulate_deltas [7]
      [("Hel", false), ("lo ", false), ("wo", false), ("rld", true)]
      initialClientState (by decide) (by simp [initialClientState])⟩

/-- C2: at most one generation is active at a time: invoking `sendMessage`
while `isProcessing` is true leaves the whole client state unchanged (no
request, nothing queued), and `ChatInput` refuses submission while
processing. -/
theorem busy_sendMessage_rejected_unchanged
    (parse : String → Option StreamEvent) (ids : List Nat) (uid eid : Nat)
    (msg m : String) (res : FetchResult) (st : ClientState) :
    sendMessage parse ids uid eid msg res { st with isProcessing := true }
        = { st with isProcessing := true }
    ∧ chatInputSubmit m true = none := by
  constructor
  · simp [sendMessage]
  · simp [chatInputSubmit]

/-- C3: the body sent by `confirmTool` consists of exactly the three fields
`{session_id, confirmed, tool_args}`, with `session_id` equal to the single
fixed session identifier of the client — the same identifier carried by every
`/chat/stream` request body. -/
theorem confirmTool_body_session_correlation (cl : ChatClient) (c : Bool)
    (a : List (String × String)) (m : String) :
    confirmToolRequestBody cl c a
        = { session_id := cl.sessionId, confirmed := c, tool_args := a }
    ∧ (confirmToolRequestBody cl c a).session_id
        = (streamChatRequestBody cl m).session_id
    ∧ (streamChatRequestBody cl m).session_id = cl.sessionId := by
  exact ⟨rfl, rfl, rfl⟩

/-- C5: a `message` event with `is_complete = true` ends only the textual
answer: it stops the typing indicator but keeps the current bot message as the
accumulation target (a later `message` event still appends to it), and the
current-bot-message reference is cleared only by `complete` or `stream_end`
events. -/
theorem is_complete_keeps_current_bot_message (fresh fresh2 : Nat)
    (st : ClientState) (m : Msg) (c d : String) (b : Bool) (ev : StreamEvent) :
    (handleStreamEvent fresh (mkMessageEvent c true) st (some m)).1.isTyping = false
    ∧ (handleStreamEvent fresh (mkMessageEvent c true) st (some m)).2
        = some { m with content := m.content ++ c }
    ∧ (handleStreamEvent fresh2 (mkMessageEvent d b)
          (handleStreamEvent fresh (mkMessageEvent c true) st (some m)).1
          (handleStreamEvent fresh (mkMessageEvent c true) st (some m)).2).2
        = some { m with content := m.content ++ c ++ d }
    ∧ ((handleStreamEvent fresh ev st (some m)).2 = none →
        ev.type = "complete" ∨ ev.type = "stream_end")
    ∧ (handleStreamEvent fresh { ev with type := "complete" } st (some m)).2 = none
    ∧ (handleStreamEvent fresh { ev with type := "stream_end" } st (some m)).2 = none := by
  refine ⟨by simp [handleStreamEvent, mkMessageEvent], ?_, ?_, ?_, ?_, ?_⟩
  · simp [handleStreamEvent, mkMessageEvent]
  · cases b <;> simp [handleStreamEvent, mkMessageEvent]
  · intro h
    by_contra hc
    push_neg at hc
    obtain ⟨h1, h2⟩ := hc
    revert h
    unfold handleStreamEvent
    split_ifs <;> simp_all [addMessage]
  · simp [handleStreamEvent]
  · simp [handleStreamEvent]

/-- C6: handling a `complete` event and handling a `stream_end` event are
semantically identical: for every client state and current bot message they
produce exactly the same result — typing indicator off, status reset, current
bot message cleared, messages list unchanged. -/
theorem complete_and_stream_end_equivalent (fresh : Nat) (st : ClientState)
    (cur : Option Msg) (c n r sid : String) (ic : Bool) :
    handleStreamEvent fresh ⟨"complete", c, n, r, sid, ic⟩ st cur
        = handleStreamEvent fresh ⟨"stream_end", c, n, r, sid, ic⟩ st cur
    ∧ handleStreamEvent fresh ⟨"complete", c, n, r, sid, ic⟩ st cur
        = ({ st with isTyping := false, status := "准备就绪" }, none) := by
  constructor <;> simp [handleStreamEvent]

theorem is_complete_keeps_current_bot_message_witness :
    (handleStreamEvent 3 ⟨"complete", "", "", "", "", false⟩ initialClientState
        (some ⟨"hi", "bot", "normal", 1⟩)).2 = none
    ∧ ((⟨"complete", "", "", "", "", false⟩ : StreamEvent).type = "complete"
        ∨ (⟨"complete", "", "", "", "", false⟩ : StreamEvent).type = "stream_end") :=
  ⟨by decide,
    (is_complete_keeps_current_bot_message 3 4 initialClientState
        ⟨"hi", "bot", "normal", 1⟩ "a" "b" false
        ⟨"complete", "", "", "", "", false⟩).2.2.2.1 (by decide)⟩

/-- C7: every failure path yields exactly one terminal error indication and
leaves the session usable: an `error` stream event appends exactly one
error-typed message and stops the typing indicator; a thrown network failure in
`sendMessage` appends exactly one error-typed message after whatever the stream
already produced; and in both `sendMessage` outcomes the processing flag ends
false, so the next `sendMessage` call is accepted. -/
theorem failure_paths_single_error_and_reset
    (parse : String → Option StreamEvent) (ids : List Nat) (uid eid fresh : Nat)
    (msg c n r sid : String) (ic : Bool) (chunks : List String)
    (st : ClientState) (cur : Option Msg) :
    handleStreamEvent fresh ⟨"error", c, n, r, sid, ic⟩ st cur
        = ({ st with
              messages := st.messages
                ++ [{ content := "❌ 错误: " ++ c, sender := "bot", type := "error",
                      id := fresh }],
              status := "发生错误", isTyping := false }, cur)
    ∧ (sendMessage parse ids uid eid msg (.err chunks)
          { st with isProcessing := false }).isProcessing = false
    ∧ (sendMessage parse ids uid eid msg (.err chunks)
          { st with isProcessing := false }).messages
        = (processChunks parse ids chunks
            { st with
                messages := st.messages
                  ++ [{ content := msg, sender := "user", type := "normal", id := uid }],
                isProcessing := true } none).2.1.messages
          ++ [{ content := netErrText, sender := "bot", type := "error", id := eid }]
    ∧ (sendMessage parse ids uid eid msg (.ok chunks)
          { st with isProcessing := false }).isProcessing = false := by
  refine ⟨by simp [handleStreamEvent, addMessage], ?_, ?_, ?_⟩
  · simp [sendMessage, addMessage]
  · simp [sendMessage, addMessage]
  · simp [sendMessage, addMessage]

/-- C8 (context assembler modelled from the spec, section 4.2): for every session
whose raw message log totals at most 3200 characters, the assembled
ContextWindow equals the raw message sequence verbatim — no summarization,
truncation or other modification. -/
theorem context_within_threshold_verbatim
    (summarize : List SpecMessage → String) (log : List SpecMessage)
    (h : totalChars log ≤ 3200) :
    assembleContext summarize log = log := by
  simp [assembleContext, h]

theorem context_within_threshold_verbatim_witness :
    totalChars [⟨"user", "hello"⟩, ⟨"assistant", "hi there"⟩] ≤ 3200
    ∧ assembleContext (fun _ => "SUMMARY")
        [⟨"user", "hello"⟩, ⟨"assistant", "hi there"⟩]
        = [⟨"user", "hello"⟩, ⟨"assistant", "hi there"⟩] :=
  ⟨by decide,
    context_within_threshold_verbatim (fun _ => "SUMMARY")
      [⟨"user", "hello"⟩, ⟨"assistant", "hi there"⟩] (by decide)⟩

/-- The append-only transcript discipline: one step transforms the messages
list by leaving it unchanged, appending one message at the end, or rewriting in
place the single message identified by the id of the current bot message. -/
def TranscriptStep (cur : Option Msg) (prev next : List Msg) : Prop :=
  next = prev
  ∨ (∃ m, next = prev ++ [m])
  ∨ (∃ pre x m post c, prev = pre ++ x :: post ∧ next = pre ++ m :: post
      ∧ cur = some c ∧ x.id = c.id ∧ m.id = c.id)

theorem updateById_transcript (msgs : List Msg) (c c2 : Msg)
    (hid : c2.id = c.id) :
    TranscriptStep (some c) msgs (updateById msgs c2) := by
  rcases updateById_cases msgs c2 with h | ⟨pre, x, post, he, hx, hu⟩
  · exact Or.inl h
  · exact Or.inr (Or.inr ⟨pre, x, c2, post, c, he, hu, rfl, hx.trans hid, hid⟩)

/-- C9: the client transcript is append-only: every stream event handled by
`handleStreamEvent` either leaves the messages list unchanged, appends one new
message at the end, or rewrites in place only the message identified by the
current bot message; `addMessage` always appends the new message at the end. -/
theorem transcript_append_only (fresh : Nat) (ev : StreamEvent)
    (st : ClientState) (cur : Option Msg) (content sender ty : String)
    (i : Nat) :
    TranscriptStep cur st.messages (handleStreamEvent fresh ev st cur).1.messages
    ∧ (addMessage content sender ty i st).1.messages
        = st.messages ++ [(addMessage content sender ty i st).2] := by
  refine ⟨?_, rfl⟩
  cases cur with
  | none =>
    unfold handleStreamEvent
    split_ifs <;>
      first
      | exact Or.inl rfl
      | exact Or.inr (Or.inl ⟨_, rfl⟩)
  | some c =>
    unfold handleStreamEvent
    split_ifs <;>
      first
      | exact Or.inl rfl
      | exact Or.inr (Or.inl ⟨_, rfl⟩)
      | exact updateById_transcript st.messages c
          { c with content := c.content ++ ev.content } rfl

theorem lookupArg_map_keys (keys : List String) (f : String → String)
    (k : String) (h : k ∈ keys) :
    lookupArg (keys.map fun x => (x, f x)) k = some (f k) := by
  induction keys with
  | nil => cases h
  | cons a rest ih =>
    by_cases ha : a = k
    · subst ha; simp [lookupArg]
    · rcases List.mem_cons.mp h with h1 | h1
      · exact absurd h1.symm ha
      · simpa [lookupArg, ha] using ih h1

theorem lookupArg_none_of_not_mem (l : List (String × String)) (k : String)
    (h : k ∉ l.map Prod.fst) : lookupArg l k = none := by
  induction l with
  | nil => rfl
  | cons p rest ih =>
    have hk : ¬ (p.1 = k) := fun he => h (by simp [he])
    simpa [lookupArg, hk] using ih (fun hm => h (List.mem_cons_of_mem _ hm))

theorem lookupArg_append_right (l l2 : List (String × String)) (k : String)
    (h : lookupArg l k = none) :
    lookupArg (l ++ l2) k = lookupArg l2 k := by
  induction l with
  | nil => rfl
  | cons p rest ih =>
    by_cases hp : p.1 = k
    · simp [lookupArg, hp] at h
    · simp only [lookupArg, hp, if_false] at h ⊢
      exact ih h

theorem lookupArg_overwrite (l : List (String × String)) (k v : String)
    (h : k ∈ l.map Prod.fst) :
    lookupArg (l.map fun p => if p.1 = k then (k, v) else p) k = some v := by
  induction l with
  | nil => cases h
  | cons p rest ih =>
    obtain ⟨pk, pv⟩ := p
    by_cases hp : pk = k
    · simp [lookupArg, hp]
    · have hm : k ∈ rest.map Prod.fst := by
        rcases List.mem_cons.mp h with h1 | h1
        · exact absurd h1.symm hp
        · exact h1
      simpa [lookupArg, hp] using ih hm

theorem lookupArg_handleParamChange_self (l : List (String × String))
    (k v : String) :
    lookupArg (handleParamChange l k v) k = some v := by
  by_cases h : k ∈ l.map Prod.fst
  · simpa [handleParamChange, h] using lookupArg_overwrite l k v h
  · rw [handleParamChange, if_neg h,
      lookupArg_append_right l _ k (lookupArg_none_of_not_mem l k h)]
    simp [lookupArg]

theorem handleParamChange_keys (l : List (String × String)) (k v : String)
    (h : k ∈ l.map Prod.fst) :
    (handleParamChange l k v).map Prod.fst = l.map Prod.fst := by
  rw [handleParamChange, if_pos h, List.map_map]
  apply List.map_congr_left
  intro p _
  by_cases hp : p.1 = k <;> simp [hp, Function.comp]

theorem applyEdits_keys (edits : List (String × String)) :
    ∀ l : List (String × String), (∀ p ∈ edits, p.1 ∈ l.map Prod.fst) →
      (applyEdits edits l).map Prod.fst = l.map Prod.fst := by
  induction edits with
  | nil => intro l _; rfl
  | cons e rest ih =>
    intro l h
    have hk := handleParamChange_keys l e.1 e.2 (h e (List.mem_cons_self e rest))
    have := ih (handleParamChange l e.1 e.2)
      (fun p hp => hk ▸ h p (List.mem_cons_of_mem _ hp))
    simpa [applyEdits] using this.trans hk

/-- C4: approving the modal sends the current modal argument mapping —
one entry per key of the argument schema of the proposal, filled initially from
the original proposed argument value (empty string when absent) and possibly
edited — so edits override the original arguments; cancelling sends
`confirmed = false` with an empty argument mapping. -/
theorem modal_args_init_edit_override_cancel (td : ToolData)
    (edits cur : List (String × String)) (k v : String) :
    handleConfirm cur = (true, cur)
    ∧ handleCancel = (false, [])
    ∧ (initToolArgs td).map Prod.fst = td.args_schema.map Prod.fst
    ∧ (k ∈ td.args_schema.map Prod.fst →
        lookupArg (initToolArgs td) k = some ((lookupArg td.args k).getD ""))
    ∧ lookupArg (handleParamChange cur k v) k = some v
    ∧ ((∀ p ∈ edits, p.1 ∈ (initToolArgs td).map Prod.fst) →
        (applyEdits edits (initToolArgs td)).map Prod.fst
          = td.args_schema.map Prod.fst) := by
  refine ⟨rfl, rfl, ?_, ?_, lookupArg_handleParamChange_self cur k v, ?_⟩
  · simp [initToolArgs, List.map_map, Function.comp]
  · intro h
    exact lookupArg_map_keys (td.args_schema.map Prod.fst)
      (fun x => (lookupArg td.args x).getD "") k h
  · intro h
    rw [applyEdits_keys edits (initToolArgs td) h]
    simp [initToolArgs, List.map_map, Function.comp]

/-- A concrete tool proposal used to instantiate the modal theorems: the `add`
tool with schema keys `a`, `b` and only `a` carrying a proposed value. -/
def sampleToolData : ToolData :=
  { name := "add"
    description := ""
    args := [("a", "15")]
    args_schema :=
      [("a", { type := "number", required := true, description := "" }),
       ("b", { type := "number", required := true, description := "" })] }

theorem modal_args_init_edit_override_cancel_witness :
    (("b" : String) ∈ sampleToolData.args_schema.map Prod.fst
      ∧ lookupArg (initToolArgs sampleToolData) "b"
          = some ((lookupArg sampleToolData.args "b").getD ""))
    ∧ lookupArg (handleParamChange (initToolArgs sampleToolData) "b" "25") "b"
        = some "25"
    ∧ (applyEdits [("b", "25")] (initToolArgs sampleToolData)).map Prod.fst
        = sampleToolData.args_schema.map Prod.fst := by
  refine ⟨⟨by decide, ?_⟩, ?_, ?_⟩
  · exact (modal_args_init_edit_override_cancel sampleToolData
      [("b", "25")] [] "b" "25").2.2.2.1 (by decide)
  · exact (modal_args_init_edit_override_cancel sampleToolData
      [("b", "25")] (initToolArgs sampleToolData) "b" "25").2.2.2.2.1
  · exact (modal_args_init_edit_override_cancel sampleToolData
      [("b", "25")] [] "b" "25").2.2.2.2.2 (by decide)

/-- C10: stream parsing is total and failure-tolerant: only lines starting
with `"data: "` are considered; payloads equal to `"[DONE]"` or blank after
trimming are skipped; a payload the JSON parser rejects is caught and skipped
without changing any chat state; and the line loop always continues with the
subsequent lines, whatever one line produced. -/
theorem stream_parsing_total_and_tolerant
    (parse : String → Option StreamEvent) (fresh : Nat) (ids : List Nat)
    (line : String) (rest : List String) (st : ClientState) (cur : Option Msg) :
    (¬ line.take 6 = "data: " →
      processLine parse fresh line st cur = (st, cur))
    ∧ (line.drop 6 = "[DONE]" ∨ (line.drop 6).trim = "" →
      processLine parse fresh line st cur = (st, cur))
    ∧ (parse (line.drop 6) = none →
      processLine parse fresh line st cur = (st, cur))
    ∧ processLines parse ids (line :: rest) st cur
        = processLines parse ids.tail rest
            (processLine parse (ids.headD 0) line st cur).1
            (processLine parse (ids.headD 0) line st cur).2 := by
  refine ⟨fun h => by simp [processLine, h], fun h => ?_, fun h => ?_, rfl⟩
  · by_cases hs : line.take 6 = "data: "
    · simp [processLine, hs, h]
    · simp [processLine, hs]
  · by_cases hs : line.take 6 = "data: "
    · by_cases hskip : line.drop 6 = "[DONE]" ∨ (line.drop 6).trim = ""
      · simp [processLine, hs, hskip]
      · simp [processLine, hs, hskip, h]
    · simp [processLine, hs]

theorem stream_parsing_total_and_tolerant_witness :
    processLine (fun _ => none) 0 "event: ping" initialClientState none
        = (initialClientState, none)
    ∧ processLine (fun _ => none) 0 "data: [DONE]" initialClientState none
        = (initialClientState, none)
    ∧ processLine (fun _ => none) 0 "data: not-json" initialClientState none
        = (initialClientState, none)
    ∧ processLines (fun _ => none) [0, 1] ["data: not-json", "tail"]
          initialClientState none
        = processLines (fun _ => none) [1] ["tail"]
            (processLine (fun _ => none) 0 "data: not-json"
              initialClientState none).1
            (processLine (fun _ => none) 0 "data: not-json"
              initialClientState none).2 :=
  ⟨(stream_parsing_total_and_tolerant (fun _ => none) 0 [] "event: ping" []
      initialClientState none).1 (by decide),
   (stream_parsing_total_and_tolerant (fun _ => none) 0 [] "data: [DONE]" []
      initialClientState none).2.1 (Or.inl (by decide)),
   (stream_parsing_total_and_tolerant (fun _ => none) 0 [] "data: not-json" []
      initialClientState none).2.2.1 rfl,
   (stream_parsing_total_and_tolerant (fun _ => none) 0 [0, 1] "data: not-json"
      ["tail"] initialClientState none).2.2.2⟩
